import Mathlib

/-!
# Verification of the state-graph execution core

A shallow embedding, in Lean 4, of the execution core of the hierarchical
state-machine runtime: the expression language (lexer, recursive-descent
parser, evaluator), the single-phase state graph, and the multi-phase graph
with its hierarchical `step`.

Modelling conventions:

* C++ `double` values are modelled as rationals (`ℚ`).  The core performs no
  arithmetic on numbers other than comparison and equality, and every numeric
  literal appearing in the verified scenarios is small, so the rational model
  agrees with IEEE doubles on everything stated here (NaN never arises: no
  operation in the core can produce one from the loaded scalars).
* C++ `int64_t` is modelled as `Int`.  The core performs no integer
  arithmetic (only comparisons after widening), so no overflow is possible.
* `std::unordered_map<std::string, Value>` bags are modelled as association
  lists with key-based lookup and insert-or-replace assignment; the core only
  ever queries maps by key, so the representation is observationally faithful.
* Exceptions are modelled with `Except`.  Stateful operations that can throw
  part-way through their mutations return `σ × Except ε α`: the first
  component is the state of the object at the moment of the throw (or at
  return), which lets partial-mutation behaviour be stated exactly.
* File I/O is abstracted: `loadFromJson` receives `none` when the document
  cannot be opened and `some doc` (an already-deserialised document) when it
  can, mirroring `std::ifstream::is_open`.
-/

/-- Runtime, lex, parse and load errors, mirroring the distinct
`std::runtime_error` messages thrown by the C++ core. -/
inductive Err
  | unterminatedString
  | unexpectedChar (c : Char)
  | parseError (msg : String)
  | unknownVar (name : String)
  | unknownProperty (name : String)
  | nonNumeric
  | expectedLeaf
  | invalidLeaf
  | unknownCmpOp
  | noCurrentState
  | noCurrentPhase
  | duplicateNode (id : String)
  | unknownEndpoint
  | duplicatePhase (id : String)
  | unknownPhase (id : String)
deriving DecidableEq, Repr

deriving instance DecidableEq for Except

/-- `Value = std::variant<int64_t, double, bool, std::string>` (value.hpp). -/
inductive Value
  | int (n : Int)
  | float (q : ℚ)
  | bool (b : Bool)
  | str (s : String)
deriving DecidableEq, Repr

/-- The variant alternative index (`Value::index()`). -/
def Value.tag : Value → Nat
  | .int _ => 0
  | .float _ => 1
  | .bool _ => 2
  | .str _ => 3

/-- `a.index() == b.index()`. -/
def sameTag (a b : Value) : Bool := a.tag == b.tag

/-- `ExprNode::toNumberPromote`: int widens to double, double passes through,
bool and string throw "Non-numeric in numeric comparison". -/
def toNumberPromote : Value → Except Err ℚ
  | .int n => .ok (n : ℚ)
  | .float q => .ok q
  | _ => .error .nonNumeric

/-- `ExprNode::valueEquals`: same variant index compares structurally;
cross-index compares promoted numbers when both sides are numeric and is
false otherwise. -/
def valueEquals (a b : Value) : Bool :=
  if sameTag a b then decide (a = b)
  else
    match toNumberPromote a, toNumberPromote b with
    | .ok x, .ok y => decide (x = y)
    | _, _ => false

/-- A node's three bags (node.hpp `DefaultNode`). -/
structure Node where
  id : String
  params : List (String × Value)
  vars : List (String × Value)
  properties : List (String × Value)
deriving DecidableEq, Repr

def Node.getParam (n : Node) (k : String) : Option Value := n.params.lookup k

def Node.getVar (n : Node) (k : String) : Option Value := n.vars.lookup k

def Node.getProperty (n : Node) (k : String) : Option Value := n.properties.lookup k

/-- Insert-or-replace on an association list (`unordered_map::operator[]=`). -/
def setPair (m : List (String × Value)) (k : String) (v : Value) :
    List (String × Value) :=
  match m with
  | [] => [(k, v)]
  | (k', v') :: rest => if k' = k then (k, v) :: rest else (k', v') :: setPair rest k v

/-- `DefaultNode::setVar`. -/
def Node.setVar (n : Node) (k : String) (v : Value) : Node :=
  { n with vars := setPair n.vars k v }

/-- `ASTValue` (expression.hpp): the payload of a leaf. -/
inductive ASTValue
  | IDENT (text : String)
  | NUMBER (num : ℚ)
  | STRING (text : String)
  | BOOLEAN (b : Bool)
deriving DecidableEq, Repr

/-- `ExprNode::Kind` together with its children, as a tagged sum. -/
inductive ExprNode
  | LEAF (leaf : ASTValue)
  | NOT (left : ExprNode)
  | AND (left right : ExprNode)
  | OR (left right : ExprNode)
  | CMP (cmpOp : String) (left right : ExprNode)
deriving DecidableEq, Repr

/-- `leaf.text.substr(0, 11)`, on ASCII identifier text. -/
def substrTo11 (s : String) : String := String.mk (s.data.take 11)

/-- `leaf.text.substr(11)`, on ASCII identifier text. -/
def substrFrom11 (s : String) : String := String.mk (s.data.drop 11)

/-- The identifier-dispatch shared by `ExprNode::eval` and
`ExprNode::extractLeaf`: a `properties.`-prefixed name is looked up (with the
prefix stripped) in the `properties` bag, anything else in `vars`. -/
def lookupName (node : Node) (name : String) : Option Value :=
  if substrTo11 name == "properties." then node.getProperty (substrFrom11 name)
  else node.getVar name

/-- Truthiness of a present `Value` (the chain of `holds_alternative` tests in
`ExprNode::eval`'s `IDENT` case). -/
def truthy : Value → Bool
  | .bool b => b
  | .int n => decide (n ≠ 0)
  | .float q => decide (q ≠ 0)
  | .str s => !(s == "")

/-- The `LEAF` case of `ExprNode::eval`: literals apply truthiness, an
identifier is looked up and an absent name yields `false`. -/
def leafTruthy (l : ASTValue) (node : Node) : Bool :=
  match l with
  | .BOOLEAN b => b
  | .NUMBER q => decide (q ≠ 0)
  | .STRING s => !(s == "")
  | .IDENT s =>
    match lookupName node s with
    | none => false
    | some v => truthy v

/-- `ExprNode::extractLeaf`: a literal leaf becomes its `Value` (numbers as
doubles), an identifier leaf is looked up and an absent name throws
"Unknown property"/"Unknown var". -/
def extractLeafVal (l : ASTValue) (node : Node) : Except Err Value :=
  match l with
  | .BOOLEAN b => .ok (.bool b)
  | .NUMBER q => .ok (.float q)
  | .STRING s => .ok (.str s)
  | .IDENT s =>
    match lookupName node s with
    | some v => .ok v
    | none =>
      if substrTo11 s == "properties." then .error (.unknownProperty (substrFrom11 s))
      else .error (.unknownVar s)

/-- `ExprNode::eval`.  `AND`/`OR` short-circuit exactly as C++ `&&`/`||` do;
`CMP` extracts both operands (`extractValue`: leaf via `extractLeaf`, non-leaf
via recursive boolean evaluation), dispatches `==`/`!=` to `valueEquals` and
the orderings through `toNumberPromote`. -/
def ExprNode.eval : ExprNode → Node → Except Err Bool
  | .LEAF l, node => .ok (leafTruthy l node)
  | .NOT e, node => do
    let b ← e.eval node
    .ok (!b)
  | .AND l r, node => do
    let a ← l.eval node
    if a then r.eval node else .ok false
  | .OR l r, node => do
    let a ← l.eval node
    if a then .ok true else r.eval node
  | .CMP op l r, node => do
    let lv ← (match l with
      | .LEAF ll => extractLeafVal ll node
      | _ => do
        let b ← l.eval node
        .ok (Value.bool b))
    let rv ← (match r with
      | .LEAF rl => extractLeafVal rl node
      | _ => do
        let b ← r.eval node
        .ok (Value.bool b))
    if op == "==" || op == "!=" then
      let eq := valueEquals lv rv
      .ok (if op == "==" then eq else !eq)
    else do
      let ln ← toNumberPromote lv
      let rn ← toNumberPromote rv
      if op == "<" then .ok (decide (ln < rn))
      else if op == "<=" then .ok (decide (ln ≤ rn))
      else if op == ">" then .ok (decide (ln > rn))
      else if op == ">=" then .ok (decide (ln ≥ rn))
      else .error .unknownCmpOp

/-- `ExprNode::extractValue`: a leaf through `extractLeaf`, a non-leaf wraps
its boolean evaluation. -/
def ExprNode.extractValue (n : ExprNode) (node : Node) : Except Err Value :=
  match n with
  | .LEAF l => extractLeafVal l node
  | _ => do
    let b ← n.eval node
    .ok (Value.bool b)

/-- `TokKind` (expression.hpp). -/
inductive TokKind
  | ID | NUM | STR | BOOL | OP | LP | RP | END
deriving DecidableEq, Repr

/-- `Token`. -/
structure Token where
  kind : TokKind
  text : String
deriving DecidableEq, Repr

/-- C-locale `isspace`, as used by `Lexer::next`. -/
def isSpaceC (c : Char) : Bool :=
  c == ' ' || c == '\t' || c == '\n' || c == '\r' || c == '\x0B' || c == '\x0C'

/-- The character class that continues an identifier in `Lexer::next`. -/
def isIdentCont (c : Char) : Bool := c.isAlphanum || c == '_' || c == '.'

/-- The character class that continues a number body in `Lexer::next`. -/
def isNumCont (c : Char) : Bool := c.isDigit || c == '.'

/-- `std::stod` applied to a lexed number body (digits and dots): the value
of the longest `digits[.digits]` prefix, as an exact rational. -/
def stodQ (s : String) : ℚ :=
  let cs := s.data
  let intPart := cs.takeWhile Char.isDigit
  let rest := cs.dropWhile Char.isDigit
  let intVal : ℚ := (intPart.foldl (fun a c => a * 10 + (c.toNat - 48)) 0 : Nat)
  match rest with
  | '.' :: rest2 =>
    let frac := rest2.takeWhile Char.isDigit
    let fracVal : ℚ := (frac.foldl (fun a c => a * 10 + (c.toNat - 48)) 0 : Nat)
    intVal + fracVal / (10 ^ frac.length : ℚ)
  | _ => intVal

/-- `Lexer::next`, on the remaining input characters.  Returns the token and
the input left over after it.  Note that no branch accepts `-`: a `-` that is
not inside a string literal falls through every operator test and throws
"Unexpected char". -/
def lexNext : List Char → Except Err (Token × List Char)
  | [] => .ok (⟨.END, ""⟩, [])
  | c :: cs =>
    if isSpaceC c then lexNext cs
    else if c.isAlpha || c == '_' then
      let body := cs.takeWhile isIdentCont
      let rest := cs.dropWhile isIdentCont
      let id := String.mk (c :: body)
      if id == "true" || id == "false" then .ok (⟨.BOOL, id⟩, rest)
      else .ok (⟨.ID, id⟩, rest)
    else if c.isDigit then
      let body := cs.takeWhile isNumCont
      let rest := cs.dropWhile isNumCont
      .ok (⟨.NUM, String.mk (c :: body)⟩, rest)
    else if c == '"' then
      let body := cs.takeWhile (fun d => !(d == '"'))
      let rest := cs.dropWhile (fun d => !(d == '"'))
      match rest with
      | [] => .error .unterminatedString
      | _ :: rest2 => .ok (⟨.STR, String.mk body⟩, rest2)
    else if c == '&' && cs.head? == some '&' then .ok (⟨.OP, "&&"⟩, cs.tail)
    else if c == '|' && cs.head? == some '|' then .ok (⟨.OP, "||"⟩, cs.tail)
    else if c == '=' && cs.head? == some '=' then .ok (⟨.OP, "=="⟩, cs.tail)
    else if c == '!' && cs.head? == some '=' then .ok (⟨.OP, "!="⟩, cs.tail)
    else if c == '<' && cs.head? == some '=' then .ok (⟨.OP, "<="⟩, cs.tail)
    else if c == '>' && cs.head? == some '=' then .ok (⟨.OP, ">="⟩, cs.tail)
    else if c == '<' || c == '>' || c == '!' then .ok (⟨.OP, String.mk [c]⟩, cs)
    else if c == '(' then .ok (⟨.LP, "("⟩, cs)
    else if c == ')' then .ok (⟨.RP, ")"⟩, cs)
    else .error (.unexpectedChar c)

/-- The grammar level (or loop continuation) currently being parsed.  The
C++ parser is five mutually recursive member functions pulling tokens from
the lexer on demand; the embedding folds them into one function indexed by
this level so that recursion is structural (on fuel) and hence the kernel can
evaluate it on concrete inputs. -/
inductive PLevel
  | por
  | porLoop (left : ExprNode)
  | pand
  | pandLoop (left : ExprNode)
  | pnot
  | pcmp
  | pprim
deriving Repr

/-- Whether a token is the given operator (`Parser::isOp`). -/
def tokIsOp (t : Token) (op : String) : Bool := t.kind == .OP && t.text == op

/-- The comparison-operator test in `Parser::parseCmp`. -/
def isCmpOp (t : Token) : Bool :=
  t.kind == .OP &&
    (t.text == "==" || t.text == "!=" || t.text == "<" || t.text == "<=" ||
     t.text == ">" || t.text == ">=")

/-- The recursive-descent parser (`Parser::parseOr/parseAnd/parseNot/
parseCmp/parsePrimary`), operating on the one-token lookahead `cur` and the
unlexed remainder `rest`, exactly as the C++ parser does (tokens past the
lookahead are never lexed).  `fuel` only bounds recursion depth; every
theorem below supplies enough of it.  Crucially, `Parser::parse` has no
end-of-input check anywhere: each level returns as soon as its production is
complete, leaving `cur`/`rest` unconsumed. -/
def parseL (fuel : Nat) (lvl : PLevel) (cur : Token) (rest : List Char) :
    Except Err (ExprNode × Token × List Char) :=
  match fuel with
  | 0 => .error (.parseError "recursion limit")
  | fuel + 1 =>
    match lvl with
    | .por => do
      let (left, c, r) ← parseL fuel .pand cur rest
      parseL fuel (.porLoop left) c r
    | .porLoop left =>
      if tokIsOp cur "||" then do
        let (c2, r2) ← lexNext rest
        let (right, c3, r3) ← parseL fuel .pand c2 r2
        parseL fuel (.porLoop (.OR left right)) c3 r3
      else .ok (left, cur, rest)
    | .pand => do
      let (left, c, r) ← parseL fuel .pnot cur rest
      parseL fuel (.pandLoop left) c r
    | .pandLoop left =>
      if tokIsOp cur "&&" then do
        let (c2, r2) ← lexNext rest
        let (right, c3, r3) ← parseL fuel .pnot c2 r2
        parseL fuel (.pandLoop (.AND left right)) c3 r3
      else .ok (left, cur, rest)
    | .pnot =>
      if tokIsOp cur "!" then do
        let (c2, r2) ← lexNext rest
        let (child, c3, r3) ← parseL fuel .pnot c2 r2
        .ok (.NOT child, c3, r3)
      else parseL fuel .pcmp cur rest
    | .pcmp => do
      let (left, c, r) ← parseL fuel .pprim cur rest
      if isCmpOp c then do
        let (c2, r2) ← lexNext r
        let (right, c3, r3) ← parseL fuel .pprim c2 r2
        .ok (.CMP c.text left right, c3, r3)
      else .ok (left, c, r)
    | .pprim =>
      if cur.kind == .LP then do
        let (c2, r2) ← lexNext rest
        let (e, c3, r3) ← parseL fuel .por c2 r2
        if c3.kind == .RP then do
          let (c4, r4) ← lexNext r3
          .ok (e, c4, r4)
        else .error (.parseError "Expected RParen")
      else if cur.kind == .BOOL then do
        let (c2, r2) ← lexNext rest
        .ok (.LEAF (.BOOLEAN (cur.text == "true")), c2, r2)
      else if cur.kind == .NUM then do
        let (c2, r2) ← lexNext rest
        .ok (.LEAF (.NUMBER (stodQ cur.text)), c2, r2)
      else if cur.kind == .STR then do
        let (c2, r2) ← lexNext rest
        .ok (.LEAF (.STRING cur.text), c2, r2)
      else if cur.kind == .ID then do
        let (c2, r2) ← lexNext rest
        .ok (.LEAF (.IDENT cur.text), c2, r2)
      else .error (.parseError "Unexpected token in primary")

/-- `Parser::parse` entered with lookahead `cur` and remainder `rest`. -/
def parseOrTop (fuel : Nat) (cur : Token) (rest : List Char) :
    Except Err (ExprNode × Token × List Char) :=
  parseL fuel .por cur rest

/-- Fuel that over-approximates the parser's recursion depth for an input of
the given length. -/
def fuelFor (s : String) : Nat := 4 * s.data.length + 16

/-- `compileExpression`: construct the parser (which immediately lexes one
lookahead token) and run `parse`.  Whatever lookahead and input remain after
the topmost `Or` production are discarded without any end-of-input check. -/
def compileExpression (s : String) : Except Err ExprNode := do
  let (cur, rest) ← lexNext s.data
  let (e, _c, _r) ← parseOrTop (fuelFor s) cur rest
  .ok e

/-- `DefaultEdge` (edge.hpp).  `compiled` is the owned expression tree; a
null pointer is `none`.  `actions` is the variable-update map (its C++
container is an `unordered_map`, so only its key-value content is
meaningful; all keys are distinct). -/
structure Edge where
  from_ : String
  to_ : String
  condition_expr : String
  compiled : Option ExprNode
  actions : List (String × Value)
deriving DecidableEq, Repr

/-- `DefaultEdge::evaluate`: a null compiled condition evaluates as TRUE. -/
def Edge.evaluate (e : Edge) (current : Node) : Except Err Bool :=
  match e.compiled with
  | some c => c.eval current
  | none => .ok true

/-- `DefaultPhaseEdge` (phase_edge.hpp). -/
structure PhaseEdge where
  from_ : String
  to_ : String
  condition_expr : String
  compiled : Option ExprNode
deriving DecidableEq, Repr

/-- `DefaultPhaseEdge::evaluate`: a null compiled condition evaluates as
FALSE. -/
def PhaseEdge.evaluate (e : PhaseEdge) (currentNode : Node) : Except Err Bool :=
  match e.compiled with
  | some c => c.eval currentNode
  | none => .ok false

/-- `StateGraph` (state_graph.hpp): nodes and edges in declaration order, the
id→index map, per-node adjacency (edge indices in declaration order) and the
optional current node index. -/
structure StateGraph where
  nodes : List Node
  edges : List Edge
  node_index : List (String × Nat)
  adjacency : List (List Nat)
  current_index : Option Nat
deriving DecidableEq, Repr

def emptyStateGraph : StateGraph := ⟨[], [], [], [], none⟩

def defaultNode : Node := ⟨"", [], [], []⟩

def defaultEdge : Edge := ⟨"", "", "", none, []⟩

/-- `StateGraph::addNode`: duplicate ids throw, otherwise append and open an
empty adjacency list. -/
def StateGraph.addNode (g : StateGraph) (n : Node) : Except Err StateGraph :=
  if (g.node_index.lookup n.id).isSome then .error (.duplicateNode n.id)
  else .ok { g with
    node_index := g.node_index ++ [(n.id, g.nodes.length)]
    nodes := g.nodes ++ [n]
    adjacency := g.adjacency ++ [[]] }

/-- `StateGraph::addEdge`: unknown endpoints throw, otherwise append the edge
and record its index in the `from` node's adjacency (preserving declaration
order). -/
def StateGraph.addEdge (g : StateGraph) (e : Edge) : Except Err StateGraph :=
  match g.node_index.lookup e.from_, g.node_index.lookup e.to_ with
  | some fi, some _ => .ok { g with
      edges := g.edges ++ [e]
      adjacency := g.adjacency.set fi ((g.adjacency.getD fi []) ++ [g.edges.length]) }
  | _, _ => .error .unknownEndpoint

/-- `StateGraph::setInitialState`: look the id up; on success point current
at it and return true, otherwise leave the graph alone and return false. -/
def StateGraph.setInitialState (g : StateGraph) (id : String) : StateGraph × Bool :=
  match g.node_index.lookup id with
  | none => (g, false)
  | some i => ({ g with current_index := some i }, true)

/-- `StateGraph::hasCurrentState`. -/
def StateGraph.hasCurrentState (g : StateGraph) : Bool := g.current_index.isSome

/-- `StateGraph::currentStateId`, as an `Except` (throws "No current state"
when unset). -/
def StateGraph.currentStateId (g : StateGraph) : Except Err String :=
  match g.current_index with
  | none => .error .noCurrentState
  | some i => .ok ((g.nodes.getD i defaultNode).id)

/-- All of an edge's action entries written into the destination node's
`vars` (the `for (auto& [k,v] : e.actions) dest.setVar(k,v);` loop). -/
def applyActions (dest : Node) (acts : List (String × Value)) : Node :=
  acts.foldl (fun d kv => d.setVar kv.1 kv.2) dest

/-- The loop body of `StateGraph::step`, iterating the current node's
adjacency in declaration order.  An evaluation error propagates with the
graph untouched; the first edge whose condition is true moves `current` to
the edge's `to` index (via the id→index map) and writes the actions into the
destination node; if no edge fires the graph is untouched and "no
transition" (`none`) is returned. -/
def StateGraph.stepFrom (g : StateGraph) (cur : Node) :
    List Nat → StateGraph × Except Err (Option String)
  | [] => (g, .ok none)
  | idx :: restIdxs =>
    let e := g.edges.getD idx defaultEdge
    match e.evaluate cur with
    | .error err => (g, .error err)
    | .ok false => g.stepFrom cur restIdxs
    | .ok true =>
      let ti := (g.node_index.lookup e.to_).getD 0
      let dest := g.nodes.getD ti defaultNode
      let dest' := applyActions dest e.actions
      ({ g with current_index := some ti, nodes := g.nodes.set ti dest' },
       .ok (some dest'.id))

/-- `StateGraph::step`: no current node means no effect and `nullopt`;
otherwise run the adjacency loop against the (fixed) current node. -/
def StateGraph.step (g : StateGraph) : StateGraph × Except Err (Option String) :=
  match g.current_index with
  | none => (g, .ok none)
  | some ci => g.stepFrom (g.nodes.getD ci defaultNode) (g.adjacency.getD ci [])

/-- `MultiPhaseStateGraph::Phase`. -/
structure Phase where
  id : String
  graph : StateGraph
  initial_state : String
deriving DecidableEq, Repr

def defaultPhase : Phase := ⟨"", emptyStateGraph, ""⟩

/-- The step-result tuple of the hierarchical `step`. -/
structure StepResult where
  phase_changed : Bool
  state_changed : Bool
  phase_id : String
  state_id : String
deriving DecidableEq, Repr

/-- `MultiPhaseStateGraph` (multi_phase_state_graph.hpp). -/
structure MultiPhaseStateGraph where
  phases : List Phase
  phase_index : List (String × Nat)
  phase_edges : List PhaseEdge
  phase_adj : List (List Nat)
  current_phase : Option Nat
deriving DecidableEq, Repr

def emptyMPG : MultiPhaseStateGraph := ⟨[], [], [], [], none⟩

/-- `MultiPhaseStateGraph::clear`. -/
def MultiPhaseStateGraph.clear (_g : MultiPhaseStateGraph) : MultiPhaseStateGraph :=
  emptyMPG

/-- `MultiPhaseStateGraph::setInitialPhase`: unknown id returns false; on
success the phase becomes current and, when it declares a non-empty
`initial_state`, `setInitialState` is forced on its graph — even if that
graph already had a current node. -/
def MultiPhaseStateGraph.setInitialPhase (g : MultiPhaseStateGraph)
    (phaseId : String) : MultiPhaseStateGraph × Bool :=
  match g.phase_index.lookup phaseId with
  | none => (g, false)
  | some i =>
    let g := { g with current_phase := some i }
    let p := g.phases.getD i defaultPhase
    if p.initial_state ≠ "" then
      let (pg, _ok) := p.graph.setInitialState p.initial_state
      ({ g with phases := g.phases.set i { p with graph := pg } }, true)
    else (g, true)

/-- The phase-edge loop of `MultiPhaseStateGraph::step`, iterated against the
source phase's (post-node-step) current node.  An evaluation error propagates
with the graph as it stands at that moment.  The first phase edge whose
condition is true switches the current phase; if the target phase has no
current node and declares an `initial_state`, that is applied — a target
phase that already has a current node keeps it (phases are resumable).
Returns whether a phase transition fired. -/
def MultiPhaseStateGraph.stepPhaseEdges (g : MultiPhaseStateGraph)
    (curNode : Node) : List Nat → MultiPhaseStateGraph × Except Err Bool
  | [] => (g, .ok false)
  | peIdx :: restIdxs =>
    let pe := g.phase_edges.getD peIdx ⟨"", "", "", none⟩
    match pe.evaluate curNode with
    | .error e => (g, .error e)
    | .ok false => g.stepPhaseEdges curNode restIdxs
    | .ok true =>
      match g.phase_index.lookup pe.to_ with
      | none => (g, .error (.unknownPhase pe.to_))
      | some ti =>
        let g1 := { g with current_phase := some ti }
        let np := g1.phases.getD ti defaultPhase
        if !np.graph.hasCurrentState && np.initial_state ≠ "" then
          let (ng, _ok) := np.graph.setInitialState np.initial_state
          ({ g1 with phases := g1.phases.set ti { np with graph := ng } }, .ok true)
        else (g1, .ok true)

/-- `MultiPhaseStateGraph::step`.  With no current phase it yields `nullopt`.
Otherwise it reads `currentStateId` of the current phase (throwing "No
current state" if that phase has no current node), performs the node-level
step (an error there propagates with only that — unchanged — graph written
back), then runs the phase-edge loop from the updated current node, and
finally reports the post-tick phase id and state id (the latter throwing if
the now-current phase has no current node). -/
def MultiPhaseStateGraph.step (g : MultiPhaseStateGraph) :
    MultiPhaseStateGraph × Except Err (Option StepResult) :=
  match g.current_phase with
  | none => (g, .ok none)
  | some ci =>
    let phase := g.phases.getD ci defaultPhase
    match phase.graph.current_index with
    | none => (g, .error .noCurrentState)
    | some _ =>
      let (pg, sres) := phase.graph.step
      let g1 := { g with phases := g.phases.set ci { phase with graph := pg } }
      match sres with
      | .error e => (g1, .error e)
      | .ok ns =>
        match pg.current_index with
        | none => (g1, .error .noCurrentState)
        | some ni =>
          let curNode := pg.nodes.getD ni defaultNode
          let (g2, pres) := g1.stepPhaseEdges curNode (g1.phase_adj.getD ci [])
          match pres with
          | .error e => (g2, .error e)
          | .ok phaseChanged =>
            match g2.current_phase with
            | none => (g2, .error .noCurrentPhase)
            | some fi =>
              let fp := g2.phases.getD fi defaultPhase
              match fp.graph.current_index with
              | none => (g2, .error .noCurrentState)
              | some si =>
                (g2, .ok (some ⟨phaseChanged, ns.isSome, fp.id,
                  (fp.graph.nodes.getD si defaultNode).id⟩))

/-- One phase object of the configuration document, already deserialised
(the JSON-to-`Node`/`Edge` conversion itself is out of scope; an absent
`initial_state` key is the empty string, exactly as in the C++ `Phase`
struct). -/
structure PhaseDoc where
  id : String
  nodes : List Node
  edges : List Edge
  initial_state : String
deriving DecidableEq, Repr

/-- The configuration document consumed by `loadFromJson` once the stream has
been read and parsed. -/
structure ConfigDoc where
  phases : List PhaseDoc
  phase_edges : List PhaseEdge
deriving DecidableEq, Repr

/-- The per-phase body of the load loop: build the phase's graph by adding
its nodes then its edges in declaration order, then record the optional
initial state (applying it to the graph when non-empty). -/
def buildPhaseGraph (pd : PhaseDoc) : Except Err StateGraph := do
  let sg ← pd.nodes.foldlM StateGraph.addNode emptyStateGraph
  let sg ← pd.edges.foldlM StateGraph.addEdge sg
  if pd.initial_state ≠ "" then .ok (sg.setInitialState pd.initial_state).1
  else .ok sg

/-- The phase-loading loop of `loadFromJson`.  A duplicate phase id or a
failure while building a phase's graph throws, leaving the phases appended so
far in place (the half-built phase is a local and is lost). -/
def MultiPhaseStateGraph.loadPhases (g : MultiPhaseStateGraph) :
    List PhaseDoc → MultiPhaseStateGraph × Except Err Unit
  | [] => (g, .ok ())
  | pd :: restDocs =>
    if (g.phase_index.lookup pd.id).isSome then (g, .error (.duplicatePhase pd.id))
    else
      match buildPhaseGraph pd with
      | .error e => (g, .error e)
      | .ok sg =>
        let g1 := { g with
          phase_index := g.phase_index ++ [(pd.id, g.phases.length)]
          phases := g.phases ++ [Phase.mk pd.id sg pd.initial_state]
          phase_adj := g.phase_adj ++ [[]] }
        g1.loadPhases restDocs

/-- The phase-edge-loading loop of `loadFromJson`: each edge must reference
known phases and is appended to its source phase's adjacency. -/
def MultiPhaseStateGraph.loadPhaseEdges (g : MultiPhaseStateGraph) :
    List PhaseEdge → MultiPhaseStateGraph × Except Err Unit
  | [] => (g, .ok ())
  | pe :: restEdges =>
    match g.phase_index.lookup pe.from_, g.phase_index.lookup pe.to_ with
    | some fi, some _ =>
      let idx := g.phase_edges.length
      let g1 := { g with
        phase_edges := g.phase_edges ++ [pe]
        phase_adj := g.phase_adj.set fi ((g.phase_adj.getD fi []) ++ [idx]) }
      g1.loadPhaseEdges restEdges
    | _, _ => (g, .error .unknownEndpoint)

/-- `MultiPhaseStateGraph::loadFromJson`.  The FIRST statement is `clear()`;
only then is the stream opened, `none` modelling a file that cannot be read
(`!in.is_open()`), which returns false with the graph left cleared.  With a
readable document the phases and then the phase edges are loaded, and if any
phases exist phase 0 becomes current, applying its initial state if its graph
has no current node. -/
def MultiPhaseStateGraph.loadFromJson (g : MultiPhaseStateGraph)
    (file : Option ConfigDoc) : MultiPhaseStateGraph × Except Err Bool :=
  let g := g.clear
  match file with
  | none => (g, .ok false)
  | some doc =>
    match g.loadPhases doc.phases with
    | (g1, .error e) => (g1, .error e)
    | (g1, .ok ()) =>
      match g1.loadPhaseEdges doc.phase_edges with
      | (g2, .error e) => (g2, .error e)
      | (g2, .ok ()) =>
        if g2.phases.isEmpty then (g2, .ok true)
        else
          let g3 := { g2 with current_phase := some 0 }
          let p := g3.phases.getD 0 defaultPhase
          if !p.graph.hasCurrentState && p.initial_state ≠ "" then
            let (pg, _ok) := p.graph.setInitialState p.initial_state
            ({ g3 with phases := g3.phases.set 0 { p with graph := pg } }, .ok true)
          else (g3, .ok true)

/-- The committed effect of firing the edge with (global) index `idx` from
`StateGraph::step`'s loop: current moves to the edge's `to` index, the
destination node receives all action writes, and the destination id is
returned. -/
def StateGraph.fireEdge (g : StateGraph) (idx : Nat) :
    StateGraph × Except Err (Option String) :=
  let e := g.edges.getD idx defaultEdge
  let ti := (g.node_index.lookup e.to_).getD 0
  let dest' := applyActions (g.nodes.getD ti defaultNode) e.actions
  ({ g with current_index := some ti, nodes := g.nodes.set ti dest' },
   .ok (some dest'.id))

/-- The evaluation of the `j`-th outgoing edge (in declaration order) of node
index `ci`, against that node. -/
def StateGraph.evalAdj (g : StateGraph) (ci j : Nat) : Except Err Bool :=
  (g.edges.getD ((g.adjacency.getD ci []).getD j 0) defaultEdge).evaluate
    (g.nodes.getD ci defaultNode)

/-! ### Concrete fixtures used by witnesses and counterexamples -/

def exprTrue : ExprNode := .LEAF (.BOOLEAN true)

def exprFalse : ExprNode := .LEAF (.BOOLEAN false)

/-- The compiled condition `missing > 0` (errors on a node without `missing`). -/
def exprMissingCmp : ExprNode := .CMP ">" (.LEAF (.IDENT "missing")) (.LEAF (.NUMBER 0))

def nodeA : Node := ⟨"A", [], [], []⟩

def nodeB : Node := ⟨"B", [], [], []⟩

/-- Edge `A→B`, condition `true`, action `k := 1`. -/
def edgeABtrue : Edge := ⟨"A", "B", "true", some exprTrue, [("k", .int 1)]⟩

/-- Edge `A→A`, condition `false`. -/
def edgeAAfalse : Edge := ⟨"A", "A", "false", some exprFalse, []⟩

/-- Edge `A→B` whose condition `m > 0` errors when `m` is unbound. -/
def edgeErr : Edge :=
  ⟨"A", "B", "m > 0", some (.CMP ">" (.LEAF (.IDENT "m")) (.LEAF (.NUMBER 0))), []⟩

/-- Phase `P`'s graph: nodes `A`, `B`, the always-firing `A→B` edge, current `A`. -/
def sgP : StateGraph :=
  ⟨[nodeA, nodeB], [edgeABtrue], [("A", 0), ("B", 1)], [[0], []], some 0⟩

/-- Phase `Q`'s graph: single node, current set. -/
def sgQ : StateGraph := ⟨[⟨"QA", [], [], []⟩], [], [("QA", 0)], [[]], some 0⟩

/-- Phase edge `P→Q` guarded by `missing > 0`. -/
def peMissing : PhaseEdge := ⟨"P", "Q", "missing > 0", some exprMissingCmp⟩

/-- Two-phase graph where the node-level edge fires and then the phase-edge
condition raises an evaluation error. -/
def mpgC2fix : MultiPhaseStateGraph :=
  ⟨[Phase.mk "P" sgP "A", Phase.mk "Q" sgQ "QA"],
   [("P", 0), ("Q", 1)], [peMissing], [[0], []], some 0⟩

/-- A graph with a first (declared-earlier) edge whose condition is false and
a second whose condition is true. -/
def gW5 : StateGraph :=
  ⟨[nodeA, nodeB], [edgeAAfalse, edgeABtrue], [("A", 0), ("B", 1)], [[0, 1], []], some 0⟩

/-- A graph whose only outgoing edge has a false condition. -/
def gW5n : StateGraph :=
  ⟨[nodeA, nodeB], [edgeAAfalse], [("A", 0), ("B", 1)], [[0], []], some 0⟩

/-- A graph whose only outgoing edge raises an evaluation error. -/
def sgErr : StateGraph :=
  ⟨[nodeA, nodeB], [edgeErr], [("A", 0), ("B", 1)], [[0], []], some 0⟩

/-- Phase edge `P→Q` that always fires. -/
def peTrue : PhaseEdge := ⟨"P", "Q", "true", some exprTrue⟩

/-- Phase `P`'s graph with no outgoing edges. -/
def sgPplain : StateGraph := ⟨[nodeA], [], [("A", 0)], [[]], some 0⟩

/-- Phase `Q`'s graph with two nodes, current at index 1 (`QB`). -/
def sgQ2 : StateGraph :=
  ⟨[⟨"QA", [], [], []⟩, ⟨"QB", [], [], []⟩], [], [("QA", 0), ("QB", 1)], [[], []], some 1⟩

/-- Two-phase graph whose phase edge fires into `Q`, which already has a
current node (`QB`, not its declared initial `QA`): resumption must preserve
`QB`. -/
def mpgC7a : MultiPhaseStateGraph :=
  ⟨[Phase.mk "P" sgPplain "A", Phase.mk "Q" sgQ2 "QA"],
   [("P", 0), ("Q", 1)], [peTrue], [[0], []], some 0⟩

/-- One-phase graph whose phase declares `initial_state = "QA"` while its
graph currently sits at `QB`: `setInitialPhase` must force `QA`. -/
def mpgC7b : MultiPhaseStateGraph :=
  ⟨[Phase.mk "Q" sgQ2 "QA"], [("Q", 0)], [], [[]], some 0⟩

/-- A phase whose graph has nodes but no current node. -/
def sgNoCur : StateGraph := ⟨[nodeA], [], [("A", 0)], [[]], none⟩

/-- Multi-phase graph with a current phase whose graph has no current node. -/
def mpgC10fix : MultiPhaseStateGraph :=
  ⟨[Phase.mk "P" sgNoCur ""], [("P", 0)], [], [[]], some 0⟩

/-- An edge and a phase edge with no compiled condition. -/
def edgeNoCond : Edge := ⟨"A", "B", "", none, []⟩

def peNoCond : PhaseEdge := ⟨"P", "Q", "", none⟩

/-! ### Helper lemmas -/

/-- `List.getD` after `List.set` at a different index is unchanged. -/
theorem getD_set_ne {α : Type} (a d : α) :
    ∀ (l : List α) (i j : Nat), i ≠ j → (l.set i a).getD j d = l.getD j d := by
  intro l
  induction l with
  | nil => intro i j _; simp [List.set]
  | cons x xs ih =>
    intro i j hij
    cases i with
    | zero =>
      cases j with
      | zero => exact absurd rfl hij
      | succ j' => simp [List.set, List.getD_cons_succ]
    | succ i' =>
      cases j with
      | zero => simp [List.set, List.getD_cons_zero]
      | succ j' =>
        simp only [List.set, List.getD_cons_succ]
        exact ih i' j' (fun hc => hij (by rw [hc]))

/-- `List.getD` after an in-bounds `List.set` at the same index yields the
new element. -/
theorem getD_set_self {α : Type} (a d : α) :
    ∀ (l : List α) (i : Nat), i < l.length → (l.set i a).getD i d = a := by
  intro l
  induction l with
  | nil => intro i h; simp at h
  | cons x xs ih =>
    intro i h
    cases i with
    | zero => simp [List.set]
    | succ i' =>
      simp only [List.set, List.getD_cons_succ]
      exact ih i' (by simpa using Nat.lt_of_succ_lt_succ h)

/-- If the edge loop of `StateGraph::step` throws, the graph component of its
result is the untouched input graph: condition evaluation is pure and the
loop mutates nothing before an edge fires. -/
theorem stepFrom_error_eq (g : StateGraph) (cur : Node) :
    ∀ (idxs : List Nat) (err : Err),
      (g.stepFrom cur idxs).2 = .error err → (g.stepFrom cur idxs).1 = g := by
  intro idxs
  induction idxs with
  | nil => intro err h; simp [StateGraph.stepFrom] at h
  | cons i rest ih =>
    intro err h
    rw [StateGraph.stepFrom] at h ⊢
    split
    · rfl
    · rename_i hev
      rw [hev] at h
      exact ih err h
    · rename_i hev
      rw [hev] at h
      simp at h

/-- If every outgoing edge's condition evaluates to false, the edge loop
finishes with the graph untouched and no transition. -/
theorem stepFrom_no_fire (g : StateGraph) (cur : Node) :
    ∀ (idxs : List Nat),
      (∀ j, j < idxs.length →
        (g.edges.getD (idxs.getD j 0) defaultEdge).evaluate cur = .ok false) →
      g.stepFrom cur idxs = (g, .ok none) := by
  intro idxs
  induction idxs with
  | nil => intro _; simp [StateGraph.stepFrom]
  | cons i rest ih =>
    intro h
    have h0 := h 0 (by simp)
    rw [List.getD_cons_zero] at h0
    rw [StateGraph.stepFrom]
    simp only [h0]
    exact ih fun j hj => by
      have := h (j + 1) (by simpa using Nat.succ_lt_succ hj)
      rw [List.getD_cons_succ] at this
      exact this

/-- If the edges before position `k` all evaluate to false and the edge at
`k` evaluates to true, the edge loop commits exactly that edge's transition. -/
theorem stepFrom_fire (g : StateGraph) (cur : Node) :
    ∀ (idxs : List Nat) (k : Nat), k < idxs.length →
      (∀ j, j < k →
        (g.edges.getD (idxs.getD j 0) defaultEdge).evaluate cur = .ok false) →
      (g.edges.getD (idxs.getD k 0) defaultEdge).evaluate cur = .ok true →
      g.stepFrom cur idxs = g.fireEdge (idxs.getD k 0) := by
  intro idxs
  induction idxs with
  | nil => intro k hk; simp at hk
  | cons i rest ih =>
    intro k hk hb hf
    cases k with
    | zero =>
      simp only [List.getD_cons_zero] at hf
      simp only [StateGraph.stepFrom, hf]
      rfl
    | succ k' =>
      have h0 := hb 0 (Nat.succ_pos k')
      simp only [List.getD_cons_zero] at h0
      simp only [StateGraph.stepFrom, h0, List.getD_cons_succ]
      simp only [List.getD_cons_succ] at hf
      exact ih k' (Nat.lt_of_succ_lt_succ hk)
        (fun j hj => by
          have := hb (j + 1) (Nat.succ_lt_succ hj)
          simpa using this) hf

/-- The phase-edge loop never modifies a phase whose graph already has a
current node: `setInitialState` is applied to the target only under
`!hasCurrentState()`, and no other phase is touched. -/
theorem stepPhaseEdges_preserves (cur : Node) (j : Nat) :
    ∀ (idxs : List Nat) (g : MultiPhaseStateGraph),
      (g.phases.getD j defaultPhase).graph.hasCurrentState = true →
      (g.stepPhaseEdges cur idxs).1.phases.getD j defaultPhase
        = g.phases.getD j defaultPhase := by
  intro idxs
  induction idxs with
  | nil => intro g h; simp [MultiPhaseStateGraph.stepPhaseEdges]
  | cons i rest ih =>
    intro g h
    rw [MultiPhaseStateGraph.stepPhaseEdges]
    split
    · rfl
    · exact ih g h
    · rename_i hev
      split
      · rfl
      · rename_i ti hlk
        dsimp only
        split
        · rename_i hcond
          by_cases hti : ti = j
          · subst hti
            rw [Bool.and_eq_true, Bool.not_eq_true'] at hcond
            rw [h] at hcond
            exact absurd hcond.1 (by simp)
          · exact getD_set_ne _ _ _ ti j hti
        · rfl

/-- A hierarchical step never modifies a non-active phase whose graph has a
current node — in particular the step that transitions back into such a
phase preserves its current node. -/
theorem step_preserves_inactive (g : MultiPhaseStateGraph) (ci j : Nat)
    (hc : g.current_phase = some ci) (hne : ci ≠ j)
    (hcur : (g.phases.getD j defaultPhase).graph.hasCurrentState = true) :
    (MultiPhaseStateGraph.step g).1.phases.getD j defaultPhase
      = g.phases.getD j defaultPhase := by
  have key : ∀ (X : Phase) (cp : Option Nat) (cur : Node) (idxs : List Nat),
      ((MultiPhaseStateGraph.stepPhaseEdges
          ⟨g.phases.set ci X, g.phase_index, g.phase_edges, g.phase_adj, cp⟩
          cur idxs).1).phases.getD j defaultPhase
        = g.phases.getD j defaultPhase := by
    intro X cp cur idxs
    have h1 : ((g.phases.set ci X).getD j defaultPhase).graph.hasCurrentState = true := by
      rw [getD_set_ne _ _ _ ci j hne]; exact hcur
    have h2 := stepPhaseEdges_preserves cur j idxs
      ⟨g.phases.set ci X, g.phase_index, g.phase_edges, g.phase_adj, cp⟩ h1
    rw [h2]
    exact getD_set_ne _ _ _ ci j hne
  rw [MultiPhaseStateGraph.step, hc]
  dsimp only
  split
  · rfl
  · repeat' split
    all_goals
      first
        | rfl
        | exact getD_set_ne _ _ _ ci j hne
        | exact key _ _ _ _

/-- `setInitialPhase` with a resolvable phase id and a non-empty, resolvable
`initial_state` forces that phase's current node to the declared initial
state, regardless of any current node it already had. -/
theorem setInitialPhase_forces (g : MultiPhaseStateGraph) (pid : String) (i ni : Nat)
    (hl : g.phase_index.lookup pid = some i)
    (hlen : i < g.phases.length)
    (hinit : (g.phases.getD i defaultPhase).initial_state ≠ "")
    (hni : (g.phases.getD i defaultPhase).graph.node_index.lookup
             (g.phases.getD i defaultPhase).initial_state = some ni) :
    (g.setInitialPhase pid).2 = true
  ∧ (g.setInitialPhase pid).1.current_phase = some i
  ∧ ((g.setInitialPhase pid).1.phases.getD i defaultPhase).graph.current_index
      = some ni := by
  rw [MultiPhaseStateGraph.setInitialPhase, hl]
  dsimp only
  rw [if_pos hinit]
  refine ⟨rfl, rfl, ?_⟩
  dsimp only
  rw [getD_set_self _ _ _ _ (by simpa using hlen)]
  rw [StateGraph.setInitialState, hni]

/-! ### Claims -/

/-- C1.  The claim — a leading `-` with a numeric body lexes as a negative
number literal, so `x > -1` compiles and evaluates true when `x = 0` — is
what the spec requires and what the repository's own tests assert
(`testTokens("-1", {NUM,"-1"})`; `compileExpression("x > -1")` evaluating
true), but the code's `Lexer::next` has no branch for `-` at all and throws
"Unexpected char: -".  This theorem evaluates the code at the failing
inputs: compiling `x > -1` fails with that lex error, as does lexing `-1`;
and the expression tree the spec intends (`x > -1` as a comparison against
the literal -1) would indeed evaluate true against `vars.x = 0`, so the
failure is purely the lexer's. -/
theorem c1_negative_literal_unsupported :
    compileExpression "x > -1" = .error (.unexpectedChar '-')
  ∧ lexNext ("-1".data) = .error (.unexpectedChar '-')
  ∧ ExprNode.eval (.CMP ">" (.LEAF (.IDENT "x")) (.LEAF (.NUMBER (-1))))
      ⟨"n", [], [("x", .int 0)], []⟩ = .ok true := by decide

/-- C2 counterexample.  The claim says a runtime evaluation error raised
during the hierarchical step leaves the whole multi-phase graph exactly as
before the step.  In `mpgC2fix` the node edge `A→B` (condition `true`,
action `k := 1`) fires first, and only then does the phase-edge condition
`missing > 0` raise "Unknown var": the error propagates out of `step`, but
the graph now differs from its pre-step state — phase `P`'s current node has
moved to index 1 (`B`) and `B.vars` holds the written `k`. -/
theorem c2_phase_edge_error_after_commit :
    (MultiPhaseStateGraph.step mpgC2fix).2 = .error (.unknownVar "missing")
  ∧ (MultiPhaseStateGraph.step mpgC2fix).1 ≠ mpgC2fix
  ∧ ((MultiPhaseStateGraph.step mpgC2fix).1.phases.getD 0 defaultPhase).graph.current_index
      = some 1 := by decide

/-- C2 (amended).  A runtime evaluation error raised while evaluating
node-edge conditions propagates out of the node-level `step` with the graph
exactly as it was: no transition and no variable write has happened.  (The
counterexample shows the hierarchical step does NOT extend this to
phase-edge evaluation errors, which fire after the node transition has
committed.) -/
theorem c2_node_level_error_leaves_graph_unchanged (g : StateGraph) (err : Err)
    (h : (StateGraph.step g).2 = .error err) : (StateGraph.step g).1 = g := by
  unfold StateGraph.step at h ⊢
  cases hc : g.current_index with
  | none => simp [hc]
  | some ci =>
    simp only [hc] at h ⊢
    exact stepFrom_error_eq g _ _ err h

/-- C2 witness: the graph `sgErr`, whose only edge condition `m > 0` raises
"Unknown var: m", is returned unchanged by `step`. -/
theorem c2_node_level_error_witness :
    (StateGraph.step sgErr).2 = .error (.unknownVar "m")
  ∧ (StateGraph.step sgErr).1 = sgErr :=
  ⟨by decide, c2_node_level_error_leaves_graph_unchanged sgErr (.unknownVar "m") (by decide)⟩

/-- C3 counterexample.  The claim says an unreadable document makes
`loadFromJson` return false *without mutating* a previously loaded graph.
But `loadFromJson` calls `clear()` before it ever tries to open the stream,
so the previously loaded `mpgC2fix` is wiped: the return is indeed `false`
without raising, yet the graph afterwards is not the prior graph. -/
theorem c3_io_failure_clears_previous_graph :
    (MultiPhaseStateGraph.loadFromJson mpgC2fix none).2 = .ok false
  ∧ (MultiPhaseStateGraph.loadFromJson mpgC2fix none).1 ≠ mpgC2fix := by decide

/-- C3 (amended).  For every prior graph state, an I/O failure makes
`loadFromJson` return the boolean false without raising — but the graph has
been cleared first (phases, edges and current pointers all reset), because
`clear()` is unconditionally the first statement of the load. -/
theorem c3_io_failure_returns_false_graph_cleared (g : MultiPhaseStateGraph) :
    MultiPhaseStateGraph.loadFromJson g none = (emptyMPG, .ok false) := rfl

/-- C4 counterexample.  The claim says input with trailing tokens after a
complete expression fails with a parse error; but `compileExpression "a ) b"`
succeeds, returning the tree of the prefix `a` and silently ignoring `) b`
(`Parser::parse` has no end-of-input check). -/
theorem c4_trailing_tokens_accepted :
    compileExpression "a ) b" = .ok (.LEAF (.IDENT "a")) := by decide

/-- C4 (amended).  `compileExpression` performs no end-of-input check:
whenever the lexer produces a first token and the topmost `Or` production
reduces successfully, compilation succeeds with that expression, whatever
lookahead token and unlexed input remain.  (Only the single lexed lookahead
can still reject, e.g. a lex error immediately after the expression.) -/
theorem c4_no_end_of_input_check (s : String) (cur : Token) (rest : List Char)
    (e : ExprNode) (c1 : Token) (r1 : List Char)
    (h1 : lexNext s.data = .ok (cur, rest))
    (h2 : parseOrTop (fuelFor s) cur rest = .ok (e, c1, r1)) :
    compileExpression s = .ok e := by
  simp [compileExpression, Bind.bind, Except.bind, h1, h2]

/-- C4 witness: `a b` compiles to the identifier leaf `a`, leaving the
trailing token `b` unconsumed. -/
theorem c4_no_end_of_input_check_witness :
    compileExpression "a b" = .ok (.LEAF (.IDENT "a")) :=
  c4_no_end_of_input_check "a b" ⟨.ID, "a"⟩ [' ', 'b'] (.LEAF (.IDENT "a"))
    ⟨.ID, "b"⟩ [] (by decide) (by decide)

/-- C5.  With a current node, `step` iterates that node's adjacency in
declaration order: if every outgoing edge's condition evaluates false, it
returns "no transition" with the graph unchanged; and if the conditions
before position `k` are false and the one at `k` is true, exactly that edge
fires — the current index becomes the edge's `to` index, all of the edge's
action entries are written into the destination node's `vars` (overwriting
existing keys), and the destination id is returned (`fireEdge`). -/
theorem c5_step_declaration_order_first_match (g : StateGraph) (ci : Nat)
    (hc : g.current_index = some ci) :
    ((∀ j, j < (g.adjacency.getD ci []).length → g.evalAdj ci j = .ok false) →
       StateGraph.step g = (g, .ok none))
  ∧ (∀ k, k < (g.adjacency.getD ci []).length →
       (∀ j, j < k → g.evalAdj ci j = .ok false) →
       g.evalAdj ci k = .ok true →
       StateGraph.step g = g.fireEdge ((g.adjacency.getD ci []).getD k 0)) := by
  constructor
  · intro h
    unfold StateGraph.step
    rw [hc]
    exact stepFrom_no_fire g _ _ h
  · intro k hk hb hf
    unfold StateGraph.step
    rw [hc]
    exact stepFrom_fire g _ _ k hk hb hf

/-- C5 witness: in `gW5` the earlier-declared edge (false condition) is
skipped and the second edge fires via `fireEdge`; in `gW5n` no edge fires
and `step` reports no transition with the graph unchanged. -/
theorem c5_step_declaration_order_first_match_witness :
    StateGraph.step gW5 = StateGraph.fireEdge gW5 1
  ∧ StateGraph.step gW5n = (gW5n, .ok none) := by
  constructor
  · have := (c5_step_declaration_order_first_match gW5 0 (by decide)).2 1
      (by decide) (by decide) (by decide)
    simpa using this
  · exact (c5_step_declaration_order_first_match gW5n 0 (by decide)).1 (by decide)

/-- C6.  Identifier leaves dispatch on the `properties.` prefix: a prefixed
name is looked up (prefix stripped) in the node's properties bag, any other
name in its vars bag.  When the name is absent, evaluation in boolean
position yields `ok false`, while evaluation as the operand of a comparison
raises "Unknown property"/"Unknown var". -/
theorem c6_identifier_lookup_dispatch_and_absence (node : Node) (name : String)
    (op : String) (r : ExprNode) :
    ((substrTo11 name == "properties.") = true →
       lookupName node name = node.getProperty (substrFrom11 name))
  ∧ ((substrTo11 name == "properties.") = false →
       lookupName node name = node.getVar name)
  ∧ (lookupName node name = none →
       ExprNode.eval (.LEAF (.IDENT name)) node = .ok false
     ∧ ExprNode.eval (.CMP op (.LEAF (.IDENT name)) r) node =
         .error (if substrTo11 name == "properties."
                 then Err.unknownProperty (substrFrom11 name)
                 else Err.unknownVar name)) := by
  refine ⟨fun hp => ?_, fun hp => ?_, fun h => ⟨?_, ?_⟩⟩
  · simp [lookupName, hp]
  · simp [lookupName, hp]
  · simp [ExprNode.eval, leafTruthy, h]
  · simp only [ExprNode.eval, extractLeafVal, h]
    split <;> rfl

/-- C6 witness: on a node with empty bags, `properties.bar` dispatches to
the properties bag, `foo` to the vars bag; the absent `foo` is `ok false` in
boolean position and "Unknown var: foo" as a comparison operand. -/
theorem c6_identifier_lookup_dispatch_and_absence_witness :
    (lookupName nodeA "properties.bar" = nodeA.getProperty (substrFrom11 "properties.bar"))
  ∧ (lookupName nodeA "foo" = nodeA.getVar "foo")
  ∧ (ExprNode.eval (.LEAF (.IDENT "foo")) nodeA = .ok false
     ∧ ExprNode.eval (.CMP ">" (.LEAF (.IDENT "foo")) exprTrue) nodeA =
         .error (if substrTo11 "foo" == "properties."
                 then Err.unknownProperty (substrFrom11 "foo")
                 else Err.unknownVar "foo")) :=
  ⟨(c6_identifier_lookup_dispatch_and_absence nodeA "properties.bar" ">" exprTrue).1 (by decide),
   (c6_identifier_lookup_dispatch_and_absence nodeA "foo" ">" exprTrue).2.1 (by decide),
   (c6_identifier_lookup_dispatch_and_absence nodeA "foo" ">" exprTrue).2.2 (by decide)⟩

/-- C7.  Phases are resumable: (1) a hierarchical step never modifies a
non-active phase whose graph already has a current node — in particular the
step that transitions back into such a phase preserves its current node
exactly as it was when the phase was last active (the `initial_state` is
applied inside `step` only when the entered phase has no current node); and
(2) `setInitialPhase`, by contrast, forces the phase's current node to its
declared initial state even when a current node is already set. -/
theorem c7_phase_resumption_and_forced_initial :
    (∀ (g : MultiPhaseStateGraph) (ci j : Nat),
       g.current_phase = some ci → ci ≠ j →
       (g.phases.getD j defaultPhase).graph.hasCurrentState = true →
       (MultiPhaseStateGraph.step g).1.phases.getD j defaultPhase
         = g.phases.getD j defaultPhase)
  ∧ (∀ (g : MultiPhaseStateGraph) (pid : String) (i ni : Nat),
       g.phase_index.lookup pid = some i → i < g.phases.length →
       (g.phases.getD i defaultPhase).initial_state ≠ "" →
       (g.phases.getD i defaultPhase).graph.node_index.lookup
         (g.phases.getD i defaultPhase).initial_state = some ni →
       (g.setInitialPhase pid).2 = true
       ∧ (g.setInitialPhase pid).1.current_phase = some i
       ∧ ((g.setInitialPhase pid).1.phases.getD i defaultPhase).graph.current_index
           = some ni) :=
  ⟨fun g ci j hc hne hcur => step_preserves_inactive g ci j hc hne hcur,
   fun g pid i ni hl hlen hinit hni => setInitialPhase_forces g pid i ni hl hlen hinit hni⟩

/-- C7 witness: stepping `mpgC7a` fires its phase edge into `Q`, which sits
at `QB` (index 1) although its declared initial state is `QA`; the phase is
left untouched, so `QB` is preserved.  And `setInitialPhase "Q"` on
`mpgC7b` — whose `Q` also sits at `QB` — forces current back to `QA`
(index 0). -/
theorem c7_phase_resumption_and_forced_initial_witness :
    (MultiPhaseStateGraph.step mpgC7a).1.phases.getD 1 defaultPhase
      = mpgC7a.phases.getD 1 defaultPhase
  ∧ ((mpgC7b.setInitialPhase "Q").2 = true
     ∧ (mpgC7b.setInitialPhase "Q").1.current_phase = some 0
     ∧ ((mpgC7b.setInitialPhase "Q").1.phases.getD 0 defaultPhase).graph.current_index
         = some 0) :=
  ⟨c7_phase_resumption_and_forced_initial.1 mpgC7a 0 1 (by decide) (by decide) (by decide),
   c7_phase_resumption_and_forced_initial.2 mpgC7b "Q" 0 0
     (by decide) (by decide) (by decide) (by decide)⟩

/-- C8.  `valueEquals` is true exactly when the two Values are structurally
equal (same-tag comparison) or when one is an integer and the other a float
and they agree after widening the integer; every other cross-tag pair —
including boolean versus integer, so `true == 1` — compares unequal. -/
theorem c8_value_equality_semantics (a b : Value) :
    valueEquals a b = true ↔
      (a = b ∨ ∃ n : Int, ∃ q : ℚ,
        ((a = .int n ∧ b = .float q) ∨ (a = .float q ∧ b = .int n)) ∧ (n : ℚ) = q) := by
  cases a <;> cases b <;>
    simp [valueEquals, sameTag, Value.tag, toNumberPromote]
  exact eq_comm

/-- C9.  An edge whose compiled condition is absent evaluates as always true
(it fires unconditionally), whereas a phase edge whose compiled condition is
absent evaluates as always false (it never fires): the default for a missing
condition is opposite at the two levels. -/
theorem c9_missing_condition_defaults (e : Edge) (pe : PhaseEdge) (n : Node)
    (he : e.compiled = none) (hpe : pe.compiled = none) :
    e.evaluate n = .ok true ∧ pe.evaluate n = .ok false := by
  constructor
  · simp [Edge.evaluate, he]
  · simp [PhaseEdge.evaluate, hpe]

/-- C9 witness: the condition-less `edgeNoCond` fires, the condition-less
`peNoCond` never does. -/
theorem c9_missing_condition_defaults_witness :
    Edge.evaluate edgeNoCond nodeA = .ok true
  ∧ PhaseEdge.evaluate peNoCond nodeA = .ok false :=
  c9_missing_condition_defaults edgeNoCond peNoCond nodeA (by decide) (by decide)

/-- C10.  If the multi-phase graph has a current phase whose state graph has
no current node, the hierarchical step is not quiescent: it raises "No
current state" (from the current-node access of the phase's graph) and the
graph is returned exactly as it was. -/
theorem c10_step_without_current_state_raises (g : MultiPhaseStateGraph) (ci : Nat)
    (h1 : g.current_phase = some ci)
    (h2 : (g.phases.getD ci defaultPhase).graph.current_index = none) :
    MultiPhaseStateGraph.step g = (g, .error .noCurrentState) := by
  simp only [MultiPhaseStateGraph.step, h1, h2]

/-- C10 witness: `mpgC10fix` (current phase `P`, whose graph has nodes but
no current node) steps to the "No current state" error, unchanged. -/
theorem c10_step_without_current_state_raises_witness :
    MultiPhaseStateGraph.step mpgC10fix = (mpgC10fix, .error .noCurrentState) :=
  c10_step_without_current_state_raises mpgC10fix 0 (by decide) (by decide)
